import Mathlib

set_option autoImplicit false

/-!
Verification development for the NVFlare confidential-computing I/O
interception engine (C sources). Machine bytes are modelled as `Nat`;
buffers and files as `List` of bytes; the filesystem as a partial map
from path strings to file contents. The external OpenSSL AEAD cipher
(an out-of-scope collaborator consumed through EVP calls) is modelled as
a record of functions, with the AEAD contract (length preservation,
decrypt-of-encrypt, tag sensitivity to bit flips) taken as hypotheses of
the theorems that need it.
-/

namespace NVFlareIO

/-- A machine byte (the C sources use `uint8_t`; we model a byte as `Nat`,
reducing mod 256 where arithmetic matters). -/
abbrev Byte := Nat

/-- Flip bit `m` of the byte at index `i` of a buffer (models a single-bit
corruption of a stored record). Out-of-range indices leave the buffer
unchanged, matching `List.set`. -/
def flipBit (i m : Nat) (l : List Byte) : List Byte :=
  l.set i ((l.getD i 0) ^^^ (2 ^ m))

/-- Overwrite the first `n` bytes of a buffer with zeros, as `memset(p,
0, n)` / `OPENSSL_cleanse(p, n)` do on a C byte buffer. -/
def memsetZero (n : Nat) (b : List Byte) : List Byte :=
  List.replicate (min n b.length) 0 ++ b.drop n

/-!
## `src/handlers/encryption_handler.c`

The AEAD framing protocol: `encryption_write` seals a plaintext into the
on-disk record `IV ‖ ciphertext ‖ tag`; `encryption_read` parses such a
record back and decrypts it. The OpenSSL EVP AES-256-GCM primitive is
external to the repository; it is modelled by the record `EvpGcm` below,
faithful to the shape of the EVP calls the C file makes:
`EVP_EncryptUpdate`/`Final` produce the ciphertext (`rawEnc`),
`EVP_CTRL_GCM_GET_TAG` produces the tag over the ciphertext (`tagOf`),
`EVP_DecryptUpdate` writes the provisional plaintext into the caller's
buffer (`rawDec`), and `EVP_DecryptFinal_ex` succeeds exactly when the
supplied tag matches the tag of the processed ciphertext.
-/

namespace EncHandler

def KEY_SIZE : Nat := 32
def IV_SIZE : Nat := 12
def TAG_SIZE : Nat := 16

/-- The external AEAD cipher provider (OpenSSL EVP AES-256-GCM), split
into the keystream/cipher part and the tag part the way the EVP API
exposes them to `encryption_handler.c`. -/
structure EvpGcm where
  rawEnc : List Byte → List Byte → List Byte → List Byte
  rawDec : List Byte → List Byte → List Byte → List Byte
  tagOf : List Byte → List Byte → List Byte → List Byte

/-- AEAD contract: decrypting the encryption of `p` under the same key
and IV yields `p`. -/
def RoundTripOk (A : EvpGcm) : Prop :=
  ∀ k iv p, A.rawDec k iv (A.rawEnc k iv p) = p

/-- AEAD contract: GCM ciphertext has the same length as the plaintext
(the 16-byte tag is carried separately). -/
def EncLenOk (A : EvpGcm) : Prop :=
  ∀ k iv p, (A.rawEnc k iv p).length = p.length

/-- AEAD contract: the authentication tag has the fixed width
`TAG_SIZE`. -/
def TagLenOk (A : EvpGcm) : Prop :=
  ∀ k iv c, (A.tagOf k iv c).length = TAG_SIZE

/-- AEAD contract (fail-closed on tampering): flipping any single bit of
a ciphertext changes its authentication tag. -/
def TagTamperOk (A : EvpGcm) : Prop :=
  ∀ k iv c i m, i < c.length → m < 8 →
    A.tagOf k iv (flipBit i m c) ≠ A.tagOf k iv c

/-- `encryption_write` (encryption_handler.c lines 38-63): seal the
buffer and emit the record `IV ‖ ciphertext ‖ tag` to the descriptor.
The descriptor's byte stream is the returned list. -/
def encryption_write (A : EvpGcm) (key iv buf : List Byte) : List Byte :=
  let ciphertext := A.rawEnc key iv buf
  iv ++ ciphertext ++ A.tagOf key iv ciphertext

/-- `encryption_read` (encryption_handler.c lines 65-105): parse
`IV ‖ ciphertext ‖ tag` from the descriptor's byte stream (`stream`),
reading up to `count` ciphertext bytes, and decrypt into the caller's
buffer `buf`. Returns the C function's return value (`-1` on error,
plaintext length on success) together with the final contents of the
caller's buffer. As in the C code, `EVP_DecryptUpdate` writes the
provisional plaintext into `buf` before `EVP_DecryptFinal_ex` verifies
the tag. -/
def encryption_read (A : EvpGcm) (key : List Byte) (stream : List Byte)
    (count : Nat) (buf : List Byte) : Int × List Byte :=
  if (stream.take IV_SIZE).length ≠ IV_SIZE then (-1, buf) else
    let iv := stream.take IV_SIZE
    let rest := stream.drop IV_SIZE
    let ciphertext := rest.take count
    let rest2 := rest.drop ciphertext.length
    if (rest2.take TAG_SIZE).length ≠ TAG_SIZE then (-1, buf) else
      let tag := rest2.take TAG_SIZE
      let plain := A.rawDec key iv ciphertext
      let buf2 := plain ++ buf.drop plain.length
      if A.tagOf key iv ciphertext = tag then ((plain.length : Int), buf2)
      else (-1, buf2)

/-- Injective encoding of a byte list into a single `Nat`, used by the
concrete witness cipher below. -/
def encodeList : List Byte → Nat
  | [] => 0
  | b :: t => Nat.pair b (encodeList t) + 1

/-- Keystream byte used by the witness cipher. -/
def toyMask (k iv : List Byte) : Nat := (k.headD 0 + iv.headD 0) % 256

/-- A concrete cipher satisfying the AEAD contract, used to witness the
theorems below: XOR with a key/IV-derived mask, and a tag that encodes
the ciphertext injectively. -/
def toyGcm : EvpGcm where
  rawEnc := fun k iv p => p.map (fun b => b ^^^ toyMask k iv)
  rawDec := fun k iv c => c.map (fun b => b ^^^ toyMask k iv)
  tagOf := fun _k _iv c => encodeList c :: List.replicate (TAG_SIZE - 1) 0

end EncHandler

/-!
## `src/nvflare/tool/confidential_computing/io_interceptor/core/interceptor.c`

The path-control policy (`is_path_allowed`, lines 310-333): whitelist
paths are checked first, then system paths, then tmpfs paths; each list
entry matches when it is a string prefix of the checked path (`strncmp`
against the entry's length); the first matching list decides the result.
Also the encryption-pattern list (`remove_encryption_pattern`, lines
90-102), modelled as a Lean list with the same first-match shift-down
removal.
-/

namespace CoreInterceptor

/-- `O_RDONLY` as on Linux: the read-only open flag is zero. -/
def O_RDONLY : Nat := 0

/-- A list entry matches a checked path when the entry is a string
prefix of the path: `strncmp(path, entry, strlen(entry)) == 0` in the C
source (comparison over the raw character sequences). -/
def entryMatches (entry path : String) : Bool :=
  entry.data.isPrefixOf path.data

/-- `handle_system_path` (interceptor.c lines 297-303): only read
operations are allowed on system paths. -/
def handle_system_path (_path : String) (operation : Nat) : Bool :=
  operation == O_RDONLY

/-- `handle_tmpfs_path` (interceptor.c lines 305-308): both read and
write are allowed on tmpfs paths. -/
def handle_tmpfs_path (_path : String) (_operation : Nat) : Bool :=
  true

/-- One scan of a path-control list, as in each loop of
`is_path_allowed`: the loop stops at the first matching entry. -/
def pathListMatches (path : String) : List String → Bool
  | [] => false
  | e :: rest => if entryMatches e path then true else pathListMatches path rest

/-- `is_path_allowed` (interceptor.c lines 310-333): whitelist first,
then system paths (read-only), then tmpfs paths; no match is blocked. -/
def is_path_allowed (wl sys tmp : List String) (path : String)
    (operation : Nat) : Bool :=
  if pathListMatches path wl then true
  else if pathListMatches path sys then handle_system_path path operation
  else if pathListMatches path tmp then handle_tmpfs_path path operation
  else false

/-- `encrypt_policy_t` (interceptor.h). -/
inductive encrypt_policy_t where
  | ENCRYPT_NONE
  | ENCRYPT_READ_WRITE
  | ENCRYPT_WRITE_ONLY
deriving DecidableEq, Repr

/-- `path_pattern_t` (interceptor.h): a glob pattern and its policy. -/
structure path_pattern_t where
  pattern : String
  policy : encrypt_policy_t
deriving DecidableEq, Repr

/-- `remove_encryption_pattern` (interceptor.c lines 90-102): remove the
first entry whose pattern string equals the argument by shifting the
following entries down; return whether an entry was removed. -/
def remove_encryption_pattern :
    List path_pattern_t → String → List path_pattern_t × Bool
  | [], _ => ([], false)
  | p :: rest, pat =>
    if p.pattern = pat then (rest, true)
    else
      let r := remove_encryption_pattern rest pat
      (p :: r.1, r.2)

end CoreInterceptor

/-!
## `src/nvflare/tool/confidential_computing/io_interceptor/handlers/encryption_handler.c`

The encrypted-fd tracking table and the encryption-context destructor.
The fd table is a C array scanned in order; it is modelled as a list.
-/

namespace CCEncHandler

def IV_SIZE : Nat := 16
def KEY_SIZE : Nat := 32

/-- `untrack_encrypted_fd` (encryption_handler.c lines 47-58): find the
first occurrence of `fd`, remove it by shifting the following entries
down, and stop (`break`); when `fd` is absent the table is unchanged. -/
def untrack_encrypted_fd : List Int → Int → List Int
  | [], _ => []
  | x :: rest, fd => if x = fd then rest else x :: untrack_encrypted_fd rest fd

/-- `struct cipher_ctx` (encryption_handler.c lines 60-67): the EVP
context handle (opaque to this model, external) and the random IV. -/
structure cipher_ctx where
  ctx : Option Unit
  iv : List Byte
deriving DecidableEq

/-- `encryption_ctx_t` (encryption_handler.h): per-file encryption
state; `key` and `cipher_ctx` are heap buffers that may be absent on
partially-initialized contexts (the error paths of
`create_encryption_ctx`). -/
structure encryption_ctx_t where
  fd : Int
  key : Option (List Byte)
  key_len : Nat
  cipher_ctx : Option cipher_ctx
deriving DecidableEq

/-- The observable contents of the heap buffers of an
`encryption_ctx_t` at the moment `free` is called on them. -/
structure ctx_freed_bytes where
  key_bytes : Option (List Byte)
  iv_bytes : Option (List Byte)
deriving DecidableEq

/-- `destroy_encryption_ctx` (encryption_handler.c lines 149-167): on
every exit path the key buffer is `OPENSSL_cleanse`d over `key_len`
bytes before `free`, and the IV buffer is cleansed over `IV_SIZE` bytes
before the cipher context is freed. The result records what each freed
buffer held when it was released. -/
def destroy_encryption_ctx (ctx : encryption_ctx_t) : ctx_freed_bytes :=
  { key_bytes := ctx.key.map (memsetZero ctx.key_len),
    iv_bytes := ctx.cipher_ctx.map (fun c => memsetZero IV_SIZE c.iv) }

end CCEncHandler

/-!
## `src/nvflare/tool/confidential_computing/io_interceptor/handlers/encryption_linux.c`

TEE key management: the master-key/file-key hierarchy and its
destructor.
-/

namespace LinuxKeys

/-- `struct tee_keys`: the process master key, the per-path derived file
key, and the activation flag. -/
structure tee_keys where
  master_key : List Byte
  file_key : List Byte
  initialized : Bool
deriving DecidableEq

/-- `cleanup_encryption_keys` (encryption_linux.c lines 267-271): when
the hierarchy is initialized, `OPENSSL_cleanse(keys, sizeof(*keys))`
zeroes the whole structure (master key, file key and flag). -/
def cleanup_encryption_keys (keys : tee_keys) : tee_keys :=
  if keys.initialized then
    { master_key := List.replicate keys.master_key.length 0,
      file_key := List.replicate keys.file_key.length 0,
      initialized := false }
  else keys

end LinuxKeys

/-!
## `src/nvflare/tool/io_interceptor/c/secure_io_interceptor.c`

The secure I/O interceptor: whitelist policy with canonicalization
(`is_path_allowed`, lines 737-776), protect-mode write interception
(lines 886-949), mmap write rejection (lines 288-300), descriptor
cleanup (lines 110-127), the crash-safety save/restore pair (lines
383-484) and the protection configuration setter (lines 982-993).

`realpath` is an external libc call; it is modelled by passing the
resolution result (`Option String`, `none` when resolution fails) or a
resolver function. `fnmatch` is likewise passed as a function parameter.
The filesystem visible to the crash-safety code is a partial map from
path to contents.
-/

namespace SecureIoInterceptor

def ENCRYPTION_KEY_SIZE : Nat := 32
def IV_SIZE : Nat := 16
def MIN_ENCRYPTION_LAYERS : Nat := 3
def MAX_ENCRYPTION_LAYERS : Nat := 10
def DEFAULT_MIN_PADDING : Nat := 1024
def DEFAULT_MAX_PADDING : Nat := 1024 * 1024
def BACKUP_SUFFIX : String := ".bak"
def PROT_WRITE : Nat := 2
def EACCES : Nat := 13

/-- `path_match_type_t` (secure_io_interceptor.h): the C enumerators are
`PATH_TYPE_EXACT`, `PATH_TYPE_PREFIX` and `PATH_TYPE_PATTERN`; they are
named `exactMatch`, `prefixMatch` and `patternMatch` here. -/
inductive path_match_type_t where
  | exactMatch
  | prefixMatch
  | patternMatch
deriving DecidableEq, Repr

/-- `whitelist_path_t` (secure_io_interceptor.h). -/
structure whitelist_path_t where
  path : String
  type : path_match_type_t
deriving DecidableEq, Repr

/-- `is_path_allowed` (secure_io_interceptor.c lines 737-776): resolve
the path with `realpath` first — `resolved` is the resolution result,
`none` when `realpath` fails — and return 0 (unsafe) in that case;
otherwise scan the whitelist: exact `strcmp` equality, `strncmp` string
prefix, or `fnmatch` glob (the external `fnmatch` is the parameter
`fnmatchFn`), returning 1 at the first match and 0 after the loop. -/
def is_path_allowed (fnmatchFn : String → String → Bool)
    (wl : List whitelist_path_t) (resolved : Option String) : Bool :=
  match resolved with
  | none => false
  | some rp =>
    wl.any fun w =>
      match w.type with
      | .exactMatch => rp == w.path
      | .prefixMatch => w.path.data.isPrefixOf rp.data
      | .patternMatch => fnmatchFn w.path rp

/-- `protect_mode_t` (secure_io_interceptor.h). -/
inductive protect_mode_t where
  | PROTECT_MODE_IGNORE
  | PROTECT_MODE_ENCRYPT
deriving DecidableEq, Repr

/-- `file_info` (secure_io_interceptor.c lines 701-705): the
write-tracking entry created by the intercepted `open`. -/
structure file_info where
  fd : Nat
  path : String
  needs_protection : Bool
deriving DecidableEq, Repr

/-- A disk: per-descriptor file contents, as an association list from
file descriptor to the bytes that have reached the target file. -/
abbrev Disk := List (Nat × List Byte)

/-- The original (un-intercepted) `write`: append the buffer to the
target file of the descriptor and return the byte count. -/
def original_write (disk : Disk) (fd : Nat) (buf : List Byte) : Disk :=
  disk.map (fun e => if e.1 = fd then (e.1, e.2 ++ buf) else e)

/-- The intercepted `open` (secure_io_interceptor.c lines 886-911): when
the flags request write access, the returned descriptor is tracked with
`needs_protection = !is_path_allowed(pathname)`; `resolve` models
`realpath`. -/
def intercepted_open (fnmatchFn : String → String → Bool)
    (wl : List whitelist_path_t) (resolve : String → Option String)
    (files : List file_info) (fd : Nat) (pathname : String)
    (wantsWrite : Bool) : List file_info :=
  if wantsWrite then
    files ++ [⟨fd, pathname, ! is_path_allowed fnmatchFn wl (resolve pathname)⟩]
  else files

/-- The intercepted `write` (secure_io_interceptor.c lines 914-949):
look the descriptor up in the tracking table; a protected descriptor is
handled per `protect_mode` — under `PROTECT_MODE_IGNORE` the data is
discarded but the full requested count is returned ("pretend we wrote
the data"); under `PROTECT_MODE_ENCRYPT` the write is routed to
`encrypt_with_checkpoint_key` or `encrypt_and_destroy` (passed as the
function parameters `encWithKey`/`encDestroy`) depending on
`is_path_allowed`; untracked or unprotected descriptors pass through to
the original `write`. -/
def intercepted_write (fnmatchFn : String → String → Bool)
    (wl : List whitelist_path_t) (resolve : String → Option String)
    (encWithKey encDestroy : Disk → Nat → List Byte → Disk × Int)
    (mode : protect_mode_t) (files : List file_info) (disk : Disk)
    (fd : Nat) (buf : List Byte) : Disk × Int :=
  match files.find? (fun f => f.fd == fd) with
  | some info =>
    if info.needs_protection then
      match mode with
      | .PROTECT_MODE_IGNORE => (disk, (buf.length : Int))
      | .PROTECT_MODE_ENCRYPT =>
        if is_path_allowed fnmatchFn wl (resolve info.path) then
          encWithKey disk fd buf
        else encDestroy disk fd buf
    else (original_write disk fd buf, (buf.length : Int))
  | none => (original_write disk fd buf, (buf.length : Int))

/-- `fd_info` (secure_io_interceptor.c lines 50-60): per-descriptor
protection state; the heap buffers are optional (absent when never
allocated). The EVP cipher context is opaque. -/
structure fd_info where
  fd : Nat
  path : Option String
  is_protected : Bool
  size : Nat
  buffer : Option (List Byte)
  temp_path : Option String
  key : Option (List Byte)
  cipher : Option Unit
deriving DecidableEq

/-- `get_fd_info` (secure_io_interceptor.c lines 151-156): scan the fd
table for the first entry with the matching descriptor. -/
def get_fd_info (table : List fd_info) (fd : Nat) : Option fd_info :=
  table.find? (fun i => i.fd == fd)

/-- The outcome of the intercepted `mmap`: either it fails with an errno
and without invoking the original `mmap`, or it passes through to the
original `mmap` primitive. -/
inductive mmap_result where
  | failed (errno : Nat)
  | passthrough
deriving DecidableEq, Repr

/-- The intercepted `mmap` (secure_io_interceptor.c lines 288-300): for
a tracked protected descriptor with `PROT_WRITE` requested, set
`errno = EACCES` and return `MAP_FAILED` without calling the original
`mmap`; otherwise forward to the original `mmap`. -/
def intercepted_mmap (table : List fd_info) (fd : Nat) (prot : Nat) :
    mmap_result :=
  match get_fd_info table fd with
  | some info =>
    if info.is_protected && (prot &&& PROT_WRITE != 0) then
      .failed EACCES
    else .passthrough
  | none => .passthrough

/-- The observable contents of the heap buffers of an `fd_info` at the
moment `free` is called on them by `cleanup_fd_info`. -/
structure fd_freed_bytes where
  buffer_bytes : Option (List Byte)
  key_bytes : Option (List Byte)
deriving DecidableEq

/-- `cleanup_fd_info` (secure_io_interceptor.c lines 110-127): the data
buffer is zeroed over `size` bytes and freed, the temp file is unlinked,
the key buffer is zeroed over its full 32 bytes and freed, the cipher
context is freed, and the entry itself is zeroed
(`memset(info, 0, sizeof(fd_info))`). The result is the zeroed entry
plus what each freed buffer held when it was released. -/
def cleanup_fd_info (info : fd_info) : fd_info × fd_freed_bytes :=
  ({ fd := 0, path := none, is_protected := false, size := 0, buffer := none,
     temp_path := none, key := none, cipher := none },
   { buffer_bytes := info.buffer.map (memsetZero info.size),
     key_bytes := info.key.map (memsetZero 32) })

/-- `disable_interceptor` (secure_io_interceptor.c lines 316-326):
registry teardown runs `cleanup_fd_info` on every live entry. -/
def disable_interceptor (table : List fd_info) :
    List (fd_info × fd_freed_bytes) :=
  table.map cleanup_fd_info

/-- A filesystem: a partial map from path to file contents (`none`
means the file does not exist). -/
abbrev FS := String → Option (List Byte)

/-- Point update of a filesystem. -/
def fsSet (fs : FS) (p : String) (v : Option (List Byte)) : FS :=
  fun q => if q = p then v else fs q

/-- `backup_path = filepath + BACKUP_SUFFIX` (secure_io_interceptor.c
lines 384-385, 466-467). -/
def backupPathOf (p : String) : String := p ++ BACKUP_SUFFIX

def SECURE_IO_SUCCESS : Int := 0
def SECURE_IO_ERROR_PARAM : Int := -1
def SECURE_IO_ERROR_BACKUP : Int := -10
def SECURE_IO_ERROR_RESTORE : Int := -11
def SECURE_IO_ERROR_INTERRUPT : Int := -12

/-- `create_backup` (secure_io_interceptor.c lines 383-410): if the
original file exists, copy it to `filepath + ".bak"`; a missing
original is not an error. -/
def create_backup (fs : FS) (filepath : String) : FS × Int :=
  match fs filepath with
  | none => (fs, SECURE_IO_SUCCESS)
  | some content =>
    (fsSet fs (backupPathOf filepath) (some content), SECURE_IO_SUCCESS)

/-- `restore_from_backup` (secure_io_interceptor.c lines 465-484): if no
backup file exists, return `SECURE_IO_ERROR_BACKUP` and touch nothing;
otherwise `unlink` the current file and `rename` the backup over it. -/
def restore_from_backup (fs : FS) (filepath : String) : FS × Int :=
  match fs (backupPathOf filepath) with
  | none => (fs, SECURE_IO_ERROR_BACKUP)
  | some content =>
    let fs1 := fsSet fs filepath none
    let fs2 := fsSet (fsSet fs1 filepath (some content))
      (backupPathOf filepath) none
    (fs2, SECURE_IO_SUCCESS)

/-- `secure_save` (secure_io_interceptor.c lines 413-462): parameter
check, backup, then the encrypt-and-write step — elided in the C source
("... (existing encryption code) ..."), modelled by the function
parameter `doWrite` that produces the filesystem after the (possibly
partial) write of `filepath` — then the cooperative-cancellation check;
on any non-success result the cleanup label calls
`restore_from_backup`. -/
def secure_save (fs : FS) (data : List Byte) (filepath : String)
    (doWrite : FS → FS) (interrupted : Bool) : FS × Int :=
  if data.length = 0 then (fs, SECURE_IO_ERROR_PARAM) else
    let b := create_backup fs filepath
    if b.2 ≠ SECURE_IO_SUCCESS then
      ((restore_from_backup b.1 filepath).1, b.2)
    else
      let fs2 := doWrite b.1
      if interrupted then
        ((restore_from_backup fs2 filepath).1, SECURE_IO_ERROR_INTERRUPT)
      else (fs2, SECURE_IO_SUCCESS)

/-- `protect_config_t` (secure_io_interceptor.h). -/
structure protect_config_t where
  num_encryption_layers : Nat
  min_padding_size : Nat
  max_padding_size : Nat
  add_random_noise : Nat
deriving DecidableEq, Repr

/-- The static `protect_config` initializer (secure_io_interceptor.c
lines 808-813). -/
def protect_config : protect_config_t :=
  { num_encryption_layers := 3,
    min_padding_size := DEFAULT_MIN_PADDING,
    max_padding_size := DEFAULT_MAX_PADDING,
    add_random_noise := 1 }

/-- `set_protect_config` (secure_io_interceptor.c lines 982-993): clamp
the requested layer count into
`[MIN_ENCRYPTION_LAYERS, MAX_ENCRYPTION_LAYERS]` and copy the padding
and noise settings verbatim. The setter returns nothing in C (it cannot
reject); the result is the new current configuration. -/
def set_protect_config (_cur : protect_config_t) (cfg : protect_config_t) :
    protect_config_t :=
  { num_encryption_layers :=
      if cfg.num_encryption_layers < MIN_ENCRYPTION_LAYERS then
        MIN_ENCRYPTION_LAYERS
      else if cfg.num_encryption_layers > MAX_ENCRYPTION_LAYERS then
        MAX_ENCRYPTION_LAYERS
      else cfg.num_encryption_layers,
    min_padding_size := cfg.min_padding_size,
    max_padding_size := cfg.max_padding_size,
    add_random_noise := cfg.add_random_noise }

end SecureIoInterceptor

/-!
## Theorems
-/

theorem length_flipBit (i m : Nat) (l : List Byte) :
    (flipBit i m l).length = l.length := by
  simp [flipBit]

theorem xor_pow_ne_self (x m : Nat) : x ^^^ 2 ^ m ≠ x := by
  intro h
  have h2 : x ^^^ (x ^^^ 2 ^ m) = x ^^^ x := by rw [h]
  rw [← Nat.xor_assoc, Nat.xor_self, Nat.zero_xor] at h2
  exact absurd h2 (by positivity : (0 : Nat) < 2 ^ m).ne'

theorem flipBit_ne (i m : Nat) (l : List Byte) (hi : i < l.length) :
    flipBit i m l ≠ l := by
  intro h
  have hgd : l.getD i 0 = l[i] := by
    simp [List.getD_eq_getElem?_getD, List.getElem?_eq_getElem hi]
  have h1 : (flipBit i m l)[i]? = some (l[i] ^^^ 2 ^ m) := by
    rw [flipBit, hgd]
    exact List.getElem?_set_eq_of_lt _ hi
  rw [h, List.getElem?_eq_getElem hi] at h1
  exact xor_pow_ne_self l[i] m (Option.some.inj h1).symm

theorem memsetZero_full (n : Nat) (b : List Byte) (h : b.length = n) :
    memsetZero n b = List.replicate n 0 := by
  rw [← h]
  simp [memsetZero]

theorem encodeList_injective : Function.Injective EncHandler.encodeList := by
  intro a
  induction a with
  | nil =>
    intro b h
    cases b with
    | nil => rfl
    | cons x t => simp [EncHandler.encodeList] at h
  | cons x t ih =>
    intro b h
    cases b with
    | nil => simp [EncHandler.encodeList] at h
    | cons y s =>
      simp only [EncHandler.encodeList, Nat.add_right_cancel_iff] at h
      obtain ⟨h1, h2⟩ := Nat.pair_eq_pair.mp h
      rw [h1, ih h2]

theorem toyGcm_round_trip : EncHandler.RoundTripOk EncHandler.toyGcm := by
  intro k iv p
  induction p with
  | nil => rfl
  | cons b t ih =>
    show ((b ^^^ EncHandler.toyMask k iv) ^^^ EncHandler.toyMask k iv)
        :: EncHandler.toyGcm.rawDec k iv (EncHandler.toyGcm.rawEnc k iv t)
        = b :: t
    rw [ih, Nat.xor_assoc, Nat.xor_self, Nat.xor_zero]

theorem toyGcm_enc_len : EncHandler.EncLenOk EncHandler.toyGcm := by
  intro k iv p
  simp [EncHandler.toyGcm]

theorem toyGcm_tag_len : EncHandler.TagLenOk EncHandler.toyGcm := by
  intro k iv c
  simp [EncHandler.toyGcm, EncHandler.TAG_SIZE]

theorem toyGcm_tag_tamper : EncHandler.TagTamperOk EncHandler.toyGcm := by
  intro k iv c i m hi _ h
  simp only [EncHandler.toyGcm, List.cons.injEq] at h
  exact flipBit_ne i m c hi (encodeList_injective h.1)

/-- Any record too short to hold `IV_SIZE + count + TAG_SIZE` bytes is
rejected by `encryption_read` before decryption, with the caller's
buffer untouched. -/
theorem encryption_read_fails_short (A : EncHandler.EvpGcm)
    (key stream : List Byte) (count : Nat) (buf : List Byte)
    (hshort : stream.length < EncHandler.IV_SIZE + count + EncHandler.TAG_SIZE) :
    EncHandler.encryption_read A key stream count buf = (-1, buf) := by
  simp only [EncHandler.encryption_read]
  split
  · rfl
  · next h1 =>
    split
    · rfl
    · next h2 =>
      exfalso
      rw [not_ne_iff] at h1 h2
      simp only [List.length_take, List.length_drop] at h1 h2
      simp only [EncHandler.IV_SIZE, EncHandler.TAG_SIZE] at h1 h2 hshort
      omega

/-- C1: For every plaintext P and every key, sealing P into an encryption
record (fresh IV, AEAD encrypt, authentication tag) with a single
retained-key layer and then opening that record with the same key returns
exactly P: `encryption_read` returns the plaintext length and the
caller's buffer starts with exactly the bytes of P. -/
theorem seal_open_round_trip (A : EncHandler.EvpGcm) (key iv P buf : List Byte)
    (hiv : iv.length = EncHandler.IV_SIZE)
    (hrt : EncHandler.RoundTripOk A) (hel : EncHandler.EncLenOk A)
    (htl : EncHandler.TagLenOk A) :
    EncHandler.encryption_read A key (EncHandler.encryption_write A key iv P)
        P.length buf
      = ((P.length : Int), P ++ buf.drop P.length) := by
  have hct : (A.rawEnc key iv P).length = P.length := hel key iv P
  have htg : (A.tagOf key iv (A.rawEnc key iv P)).length = EncHandler.TAG_SIZE :=
    htl key iv _
  have htake : (A.tagOf key iv (A.rawEnc key iv P)).take EncHandler.TAG_SIZE
      = A.tagOf key iv (A.rawEnc key iv P) := by
    rw [← htg]
    exact List.take_length _
  simp only [EncHandler.encryption_write, EncHandler.encryption_read]
  rw [List.append_assoc, List.take_left' hiv, List.drop_left' hiv,
    List.take_left' hct, List.drop_left, htake, hrt key iv P]
  rw [if_neg (not_ne_iff.mpr hiv), if_neg (not_ne_iff.mpr htg), if_pos rfl]

/-- Witness for C1 at a concrete plaintext, key and IV, using the
concrete witness cipher. -/
theorem seal_open_round_trip_witness :
    EncHandler.encryption_read EncHandler.toyGcm [7]
        (EncHandler.encryption_write EncHandler.toyGcm [7]
          (List.replicate 12 0) [1, 2, 3])
        ([1, 2, 3] : List Byte).length [9, 9, 9, 9]
      = ((([1, 2, 3] : List Byte).length : Int),
          [1, 2, 3] ++ ([9, 9, 9, 9] : List Byte).drop
            ([1, 2, 3] : List Byte).length) :=
  seal_open_round_trip EncHandler.toyGcm [7] (List.replicate 12 0) [1, 2, 3]
    [9, 9, 9, 9] (by simp [EncHandler.IV_SIZE]) toyGcm_round_trip
    toyGcm_enc_len toyGcm_tag_len

/-- C2 (amended): opening a sealed record after any single-bit corruption
of its ciphertext or its tag, or after any truncation, fails with the
authentication-error return value `-1`; truncated records are rejected
before anything is written into the caller's buffer. (The original
claim's further conjunct — that no partially-decrypted or altered
plaintext ever reaches the caller — fails: on a tag mismatch the
caller's buffer has already been overwritten by `EVP_DecryptUpdate`
before `EVP_DecryptFinal_ex` verifies the tag; see the
counterexample.) -/
theorem open_rejects_corruption (A : EncHandler.EvpGcm) (key iv P buf : List Byte)
    (hiv : iv.length = EncHandler.IV_SIZE) (hel : EncHandler.EncLenOk A)
    (htl : EncHandler.TagLenOk A) (htam : EncHandler.TagTamperOk A) :
    (∀ i m, i < (A.rawEnc key iv P).length → m < 8 →
      (EncHandler.encryption_read A key
        (iv ++ flipBit i m (A.rawEnc key iv P)
          ++ A.tagOf key iv (A.rawEnc key iv P)) P.length buf).1 = -1)
  ∧ (∀ i m, i < EncHandler.TAG_SIZE → m < 8 →
      (EncHandler.encryption_read A key
        (iv ++ A.rawEnc key iv P
          ++ flipBit i m (A.tagOf key iv (A.rawEnc key iv P))) P.length buf).1
        = -1)
  ∧ (∀ n, n < (EncHandler.encryption_write A key iv P).length →
      EncHandler.encryption_read A key
        ((EncHandler.encryption_write A key iv P).take n) P.length buf
        = (-1, buf)) := by
  have hct : (A.rawEnc key iv P).length = P.length := hel key iv P
  have htg : (A.tagOf key iv (A.rawEnc key iv P)).length = EncHandler.TAG_SIZE :=
    htl key iv _
  refine ⟨?_, ?_, ?_⟩
  · intro i m hi hm
    have hct' : (flipBit i m (A.rawEnc key iv P)).length = P.length := by
      rw [length_flipBit, hct]
    have htake : (A.tagOf key iv (A.rawEnc key iv P)).take EncHandler.TAG_SIZE
        = A.tagOf key iv (A.rawEnc key iv P) := by
      rw [← htg]
      exact List.take_length _
    simp only [EncHandler.encryption_read]
    rw [List.append_assoc, List.take_left' hiv, List.drop_left' hiv,
      List.take_left' hct', List.drop_left, htake]
    rw [if_neg (not_ne_iff.mpr hiv), if_neg (not_ne_iff.mpr htg),
      if_neg (htam key iv (A.rawEnc key iv P) i m hi hm)]
  · intro i m hi _
    have htg' : (flipBit i m (A.tagOf key iv (A.rawEnc key iv P))).length
        = EncHandler.TAG_SIZE := by
      rw [length_flipBit, htg]
    have htake : (flipBit i m (A.tagOf key iv (A.rawEnc key iv P))).take
        EncHandler.TAG_SIZE
        = flipBit i m (A.tagOf key iv (A.rawEnc key iv P)) := by
      rw [← htg']
      exact List.take_length _
    have hne : A.tagOf key iv (A.rawEnc key iv P)
        ≠ flipBit i m (A.tagOf key iv (A.rawEnc key iv P)) := by
      intro h
      exact flipBit_ne i m (A.tagOf key iv (A.rawEnc key iv P))
        (htg ▸ hi) h.symm
    simp only [EncHandler.encryption_read]
    rw [List.append_assoc, List.take_left' hiv, List.drop_left' hiv,
      List.take_left' hct, List.drop_left, htake]
    rw [if_neg (not_ne_iff.mpr hiv), if_neg (not_ne_iff.mpr htg'), if_neg hne]
  · intro n hn
    have hlen : (EncHandler.encryption_write A key iv P).length
        = EncHandler.IV_SIZE + (P.length + EncHandler.TAG_SIZE) := by
      simp [EncHandler.encryption_write, hiv, hct, htg]
    refine encryption_read_fails_short A key _ P.length buf ?_
    rw [List.length_take]
    omega

/-- Witness for the amended C2 theorem: a concrete single-bit ciphertext
corruption is rejected with `-1`. -/
theorem open_rejects_corruption_witness :
    (EncHandler.encryption_read EncHandler.toyGcm []
      (List.replicate 12 0
        ++ flipBit 0 0 (EncHandler.toyGcm.rawEnc [] (List.replicate 12 0) [1, 2])
        ++ EncHandler.toyGcm.tagOf [] (List.replicate 12 0)
            (EncHandler.toyGcm.rawEnc [] (List.replicate 12 0) [1, 2]))
      ([1, 2] : List Byte).length []).1 = -1 :=
  (open_rejects_corruption EncHandler.toyGcm [] (List.replicate 12 0) [1, 2] []
    (by simp [EncHandler.IV_SIZE]) toyGcm_enc_len
    toyGcm_tag_len toyGcm_tag_tamper).1 0 0
    (by simp [EncHandler.toyGcm]) (by omega)

/-- Counterexample to C2 as stated: flipping one bit of the ciphertext of
a sealed record makes `encryption_read` return the authentication error
`-1`, yet the caller's buffer (originally `[9, 9, 9]`) now holds
`[0, 2, 9]`: its first two bytes are exactly the altered decrypted
plaintext of the corrupted ciphertext, written by `EVP_DecryptUpdate`
before the tag check. So altered plaintext does reach the caller. -/
theorem open_corruption_clobbers_buffer :
    (EncHandler.encryption_read EncHandler.toyGcm []
        (List.replicate 12 0
          ++ flipBit 0 0 (EncHandler.toyGcm.rawEnc [] (List.replicate 12 0) [1, 2])
          ++ EncHandler.toyGcm.tagOf [] (List.replicate 12 0)
              (EncHandler.toyGcm.rawEnc [] (List.replicate 12 0) [1, 2]))
        2 [9, 9, 9])
      = (-1, [0, 2, 9])
  ∧ ([0, 2, 9] : List Byte) ≠ [9, 9, 9]
  ∧ ([0, 2, 9] : List Byte).take 2
      = EncHandler.toyGcm.rawDec [] (List.replicate 12 0)
          (flipBit 0 0 (EncHandler.toyGcm.rawEnc [] (List.replicate 12 0) [1, 2]))
  := by decide

theorem pathListMatches_iff (path : String) (l : List String) :
    CoreInterceptor.pathListMatches path l = true
      ↔ ∃ e ∈ l, CoreInterceptor.entryMatches e path = true := by
  induction l with
  | nil => simp [CoreInterceptor.pathListMatches]
  | cons e rest ih =>
    simp only [CoreInterceptor.pathListMatches]
    by_cases he : CoreInterceptor.entryMatches e path = true
    · simp only [he, if_true, true_iff]
      exact ⟨e, List.mem_cons_self e rest, he⟩
    · rw [if_neg he, ih]
      constructor
      · intro hx
        obtain ⟨x, hx1, hx2⟩ := hx
        exact ⟨x, List.mem_cons_of_mem e hx1, hx2⟩
      · intro hx
        obtain ⟨x, hx1, hx2⟩ := hx
        rcases List.mem_cons.mp hx1 with h | h
        · rw [← h] at he
          exact absurd hx2 he
        · exact ⟨x, h, hx2⟩

/-- C4: `is_path_allowed` evaluates whitelist rules first, then system
rules, then tmpfs rules, first matching list wins: a whitelist match
allows the operation; a system-path match (with no whitelist match)
allows it if and only if the operation is read-only (`O_RDONLY`); a
tmpfs match (with no earlier match) allows every operation; no match
blocks the operation. -/
theorem policy_first_match_order (wl sys tmp : List String) (path : String)
    (op : Nat) :
    ((∃ e ∈ wl, CoreInterceptor.entryMatches e path = true) →
      CoreInterceptor.is_path_allowed wl sys tmp path op = true)
  ∧ ((¬ ∃ e ∈ wl, CoreInterceptor.entryMatches e path = true) →
      (∃ e ∈ sys, CoreInterceptor.entryMatches e path = true) →
      (CoreInterceptor.is_path_allowed wl sys tmp path op = true
        ↔ op = CoreInterceptor.O_RDONLY))
  ∧ ((¬ ∃ e ∈ wl, CoreInterceptor.entryMatches e path = true) →
      (¬ ∃ e ∈ sys, CoreInterceptor.entryMatches e path = true) →
      (∃ e ∈ tmp, CoreInterceptor.entryMatches e path = true) →
      CoreInterceptor.is_path_allowed wl sys tmp path op = true)
  ∧ ((¬ ∃ e ∈ wl, CoreInterceptor.entryMatches e path = true) →
      (¬ ∃ e ∈ sys, CoreInterceptor.entryMatches e path = true) →
      (¬ ∃ e ∈ tmp, CoreInterceptor.entryMatches e path = true) →
      CoreInterceptor.is_path_allowed wl sys tmp path op = false) := by
  simp only [← pathListMatches_iff]
  refine ⟨?_, ?_, ?_, ?_⟩
  · intro hwl
    simp [CoreInterceptor.is_path_allowed, hwl]
  · intro hwl hsys
    rw [Bool.not_eq_true] at hwl
    simp [CoreInterceptor.is_path_allowed, hwl, hsys,
      CoreInterceptor.handle_system_path, beq_iff_eq]
  · intro hwl hsys htmp
    rw [Bool.not_eq_true] at hwl hsys
    simp [CoreInterceptor.is_path_allowed, hwl, hsys, htmp,
      CoreInterceptor.handle_tmpfs_path]
  · intro hwl hsys htmp
    rw [Bool.not_eq_true] at hwl hsys htmp
    simp [CoreInterceptor.is_path_allowed, hwl, hsys, htmp]

/-- Witness for C4: concrete rule lists exercising the system-path
branch (a write to a system path is rejected, a read is allowed). -/
theorem policy_first_match_order_witness :
    CoreInterceptor.is_path_allowed ["/tmp/nvflare"] ["/etc"] ["/tmp"]
      "/etc/hosts" 1 = false
  ∧ CoreInterceptor.is_path_allowed ["/tmp/nvflare"] ["/etc"] ["/tmp"]
      "/etc/hosts" 0 = true := by
  constructor
  · have h := (policy_first_match_order ["/tmp/nvflare"] ["/etc"] ["/tmp"]
      "/etc/hosts" 1).2.1 (by decide) (by decide)
    have hne : ¬ ((1 : Nat) = CoreInterceptor.O_RDONLY) := by decide
    cases hb : CoreInterceptor.is_path_allowed ["/tmp/nvflare"] ["/etc"]
      ["/tmp"] "/etc/hosts" 1
    · rfl
    · exact absurd (h.mp hb) hne
  · exact ((policy_first_match_order ["/tmp/nvflare"] ["/etc"] ["/tmp"]
      "/etc/hosts" 0).2.1 (by decide) (by decide)).mpr rfl

/-- C10: `remove_encryption_pattern` and `untrack_encrypted_fd` delete
exactly the first entry equal to the argument and preserve the relative
order of the remaining entries; when no entry matches, the collection is
unchanged (and `remove_encryption_pattern` returns false). -/
theorem removal_deletes_first_match :
    (∀ (l : List CoreInterceptor.path_pattern_t) (pat : String),
      (∀ p ∈ l, p.pattern ≠ pat) →
      CoreInterceptor.remove_encryption_pattern l pat = (l, false))
  ∧ (∀ (l1 : List CoreInterceptor.path_pattern_t)
      (x : CoreInterceptor.path_pattern_t)
      (l2 : List CoreInterceptor.path_pattern_t) (pat : String),
      (∀ p ∈ l1, p.pattern ≠ pat) → x.pattern = pat →
      CoreInterceptor.remove_encryption_pattern (l1 ++ x :: l2) pat
        = (l1 ++ l2, true))
  ∧ (∀ (l : List Int) (fd : Int), (∀ y ∈ l, y ≠ fd) →
      CCEncHandler.untrack_encrypted_fd l fd = l)
  ∧ (∀ (l1 : List Int) (fd : Int) (l2 : List Int), (∀ y ∈ l1, y ≠ fd) →
      CCEncHandler.untrack_encrypted_fd (l1 ++ fd :: l2) fd = l1 ++ l2) := by
  refine ⟨?_, ?_, ?_, ?_⟩
  · intro l pat h
    induction l with
    | nil => rfl
    | cons p rest ih =>
      have hp : p.pattern ≠ pat := h p (List.mem_cons_self p rest)
      have hrest := ih (fun q hq => h q (List.mem_cons_of_mem p hq))
      simp only [CoreInterceptor.remove_encryption_pattern, if_neg hp, hrest]
  · intro l1 x l2 pat h1 hx
    induction l1 with
    | nil =>
      simp only [List.nil_append, CoreInterceptor.remove_encryption_pattern,
        if_pos hx]
    | cons p rest ih =>
      have hp : p.pattern ≠ pat := h1 p (List.mem_cons_self p rest)
      have hrest := ih (fun q hq => h1 q (List.mem_cons_of_mem p hq))
      simp only [List.cons_append, CoreInterceptor.remove_encryption_pattern,
        if_neg hp, List.append_eq, hrest]
  · intro l fd h
    induction l with
    | nil => rfl
    | cons y rest ih =>
      have hy : y ≠ fd := h y (List.mem_cons_self y rest)
      have hrest := ih (fun z hz => h z (List.mem_cons_of_mem y hz))
      simp only [CCEncHandler.untrack_encrypted_fd, if_neg hy, hrest]
  · intro l1 fd l2 h1
    induction l1 with
    | nil =>
      simp [CCEncHandler.untrack_encrypted_fd]
    | cons y rest ih =>
      have hy : y ≠ fd := h1 y (List.mem_cons_self y rest)
      have hrest := ih (fun z hz => h1 z (List.mem_cons_of_mem y hz))
      simp only [List.cons_append, CCEncHandler.untrack_encrypted_fd,
        if_neg hy, List.append_eq, hrest]

/-- Witness for C10: a concrete removal and a concrete no-match case on
both collections. -/
theorem removal_deletes_first_match_witness :
    CoreInterceptor.remove_encryption_pattern
      [⟨"/a/*", .ENCRYPT_NONE⟩, ⟨"/b/*", .ENCRYPT_READ_WRITE⟩,
        ⟨"/b/*", .ENCRYPT_WRITE_ONLY⟩] "/b/*"
      = ([⟨"/a/*", .ENCRYPT_NONE⟩, ⟨"/b/*", .ENCRYPT_WRITE_ONLY⟩], true)
  ∧ CoreInterceptor.remove_encryption_pattern
      [⟨"/a/*", .ENCRYPT_NONE⟩] "/c/*" = ([⟨"/a/*", .ENCRYPT_NONE⟩], false)
  ∧ CCEncHandler.untrack_encrypted_fd [3, 4, 5] 4 = [3, 5]
  ∧ CCEncHandler.untrack_encrypted_fd [3, 4, 5] 7 = [3, 4, 5] := by
  refine ⟨?_, ?_, ?_, ?_⟩
  · exact removal_deletes_first_match.2.1 [⟨"/a/*", .ENCRYPT_NONE⟩]
      ⟨"/b/*", .ENCRYPT_READ_WRITE⟩ [⟨"/b/*", .ENCRYPT_WRITE_ONLY⟩] "/b/*"
      (by decide) (by decide)
  · exact removal_deletes_first_match.1 [⟨"/a/*", .ENCRYPT_NONE⟩] "/c/*"
      (by decide)
  · exact removal_deletes_first_match.2.2.2 [3] 4 [5] (by decide)
  · exact removal_deletes_first_match.2.2.1 [3, 4, 5] 7 (by decide)

/-- Counterexample to C3 as stated: the claim also covers the duplicate
`is_path_allowed` in core/interceptor.c (lines 310-333), which never
calls `realpath`. Here `"/tmp/broken_link"` stands for a broken symlink:
its canonicalization fails (the resolver yields `none`, first conjunct),
yet the core policy — configured with the source's default system and
tmpfs rule lists from `init_default_paths` — matches the raw string
against the `/tmp` tmpfs prefix rule and allows the operation, a write
(`operation = 1`), instead of blocking it. -/
theorem core_policy_allows_unresolved_path :
    ((fun _ : String => (none : Option String)) "/tmp/broken_link" = none)
  ∧ CoreInterceptor.is_path_allowed []
      ["/bin", "/sbin", "/lib", "/lib64", "/usr/bin", "/usr/sbin",
        "/usr/lib", "/usr/lib64", "/etc"]
      ["/tmp", "/dev/shm", "/run", "/sys/fs/cgroup"]
      "/tmp/broken_link" 1 = true := by decide

/-- C3 (amended): fail-closed on unresolved paths holds only for the
canonicalizing policy of secure_io_interceptor.c: its `is_path_allowed`
returns 0 whenever `realpath` fails, regardless of the configured
whitelist and glob matcher. The duplicate `is_path_allowed` in
core/interceptor.c performs no canonicalization: it matches the raw path
string against the prefix rule lists, so a path whose resolution fails
is still allowed whenever it prefix-matches a configured rule that no
earlier list claims (for a tmpfs rule: every operation, including
writes). -/
theorem unresolved_path_policy (fnmatchFn : String → String → Bool)
    (wl : List SecureIoInterceptor.whitelist_path_t)
    (resolve : String → Option String)
    (cwl csys ctmp : List String) (path : String) (op : Nat)
    (hres : resolve path = none)
    (hwl : ¬ ∃ e ∈ cwl, CoreInterceptor.entryMatches e path = true)
    (hsys : ¬ ∃ e ∈ csys, CoreInterceptor.entryMatches e path = true)
    (htmp : ∃ e ∈ ctmp, CoreInterceptor.entryMatches e path = true) :
    SecureIoInterceptor.is_path_allowed fnmatchFn wl (resolve path) = false
  ∧ CoreInterceptor.is_path_allowed cwl csys ctmp path op = true := by
  constructor
  · rw [hres]
    rfl
  · have hwl' : CoreInterceptor.pathListMatches path cwl = false := by
      rw [← Bool.not_eq_true, pathListMatches_iff]
      exact hwl
    have hsys' : CoreInterceptor.pathListMatches path csys = false := by
      rw [← Bool.not_eq_true, pathListMatches_iff]
      exact hsys
    have htmp' : CoreInterceptor.pathListMatches path ctmp = true :=
      (pathListMatches_iff path ctmp).mpr htmp
    simp [CoreInterceptor.is_path_allowed, hwl', hsys', htmp',
      CoreInterceptor.handle_tmpfs_path]

/-- Witness for the amended C3 theorem: a broken symlink under `/tmp`
with the source's default rule lists — blocked by the canonicalizing
policy, allowed (for a write) by the core policy. -/
theorem unresolved_path_policy_witness :
    SecureIoInterceptor.is_path_allowed (fun _ _ => false) []
      ((fun _ : String => (none : Option String)) "/tmp/broken_link") = false
  ∧ CoreInterceptor.is_path_allowed []
      ["/bin", "/sbin", "/lib", "/lib64", "/usr/bin", "/usr/sbin",
        "/usr/lib", "/usr/lib64", "/etc"]
      ["/tmp", "/dev/shm", "/run", "/sys/fs/cgroup"]
      "/tmp/broken_link" 1 = true :=
  unresolved_path_policy (fun _ _ => false) [] (fun _ => none)
    []
    ["/bin", "/sbin", "/lib", "/lib64", "/usr/bin", "/usr/sbin",
      "/usr/lib", "/usr/lib64", "/etc"]
    ["/tmp", "/dev/shm", "/run", "/sys/fs/cgroup"]
    "/tmp/broken_link" 1 rfl (by decide) (by decide) (by decide)

theorem find_fresh_appended (files : List SecureIoInterceptor.file_info)
    (fd : Nat) (e : SecureIoInterceptor.file_info)
    (hfresh : ∀ f ∈ files, f.fd ≠ fd) (he : e.fd = fd) :
    (files ++ [e]).find? (fun f => f.fd == fd) = some e := by
  induction files with
  | nil => simp [List.find?, he]
  | cons f rest ih =>
    have hf : (f.fd == fd) = false :=
      beq_eq_false_iff_ne.mpr (hfresh f (List.mem_cons_self f rest))
    simp only [List.cons_append, List.find?, hf]
    exact ih (fun g hg => hfresh g (List.mem_cons_of_mem f hg))

/-- C5: under `PROTECT_MODE_IGNORE`, a write to a descriptor that was
opened for writing on a non-whitelisted path returns exactly the
requested byte count while the disk is left unchanged — none of the
bytes reach any target file. -/
theorem ignore_mode_write_discards (fnmatchFn : String → String → Bool)
    (wl : List SecureIoInterceptor.whitelist_path_t)
    (resolve : String → Option String)
    (encK encD : SecureIoInterceptor.Disk → Nat → List Byte →
      SecureIoInterceptor.Disk × Int)
    (files : List SecureIoInterceptor.file_info)
    (disk : SecureIoInterceptor.Disk) (fd : Nat) (pathname : String)
    (buf : List Byte)
    (hfresh : ∀ f ∈ files, f.fd ≠ fd)
    (hblocked : SecureIoInterceptor.is_path_allowed fnmatchFn wl
      (resolve pathname) = false) :
    SecureIoInterceptor.intercepted_write fnmatchFn wl resolve encK encD
      .PROTECT_MODE_IGNORE
      (SecureIoInterceptor.intercepted_open fnmatchFn wl resolve files fd
        pathname true)
      disk fd buf
    = (disk, (buf.length : Int)) := by
  have hopen : SecureIoInterceptor.intercepted_open fnmatchFn wl resolve files
      fd pathname true = files ++ [⟨fd, pathname, true⟩] := by
    simp [SecureIoInterceptor.intercepted_open, hblocked]
  have hfind := find_fresh_appended files fd ⟨fd, pathname, true⟩ hfresh rfl
  rw [hopen]
  simp only [SecureIoInterceptor.intercepted_write]
  rw [hfind]
  rfl

/-- Witness for C5: a concrete non-whitelisted descriptor; the write of
two bytes reports 2 and the target file stays empty. -/
theorem ignore_mode_write_discards_witness :
    SecureIoInterceptor.intercepted_write (fun _ _ => false) []
      (fun _ => none) (fun d _ _ => (d, -1)) (fun d _ _ => (d, -1))
      .PROTECT_MODE_IGNORE
      (SecureIoInterceptor.intercepted_open (fun _ _ => false) []
        (fun _ => none) [] 5 "/data/model.pt" true)
      [(5, [])] 5 [1, 2]
    = ([(5, [])], (([1, 2] : List Byte).length : Int)) :=
  ignore_mode_write_discards (fun _ _ => false) [] (fun _ => none)
    (fun d _ _ => (d, -1)) (fun d _ _ => (d, -1)) [] [(5, [])] 5
    "/data/model.pt" [1, 2] (by intro f hf; cases hf) rfl

/-- C6: `mmap` requesting `PROT_WRITE` on a descriptor registered as
protected fails with `errno = EACCES` (`MAP_FAILED`), and the original
`mmap` primitive is not invoked (the `failed` outcome is produced before
the passthrough call). -/
theorem mmap_write_on_protected_rejected
    (table : List SecureIoInterceptor.fd_info) (fd prot : Nat)
    (info : SecureIoInterceptor.fd_info)
    (h1 : SecureIoInterceptor.get_fd_info table fd = some info)
    (h2 : info.is_protected = true)
    (h3 : prot &&& SecureIoInterceptor.PROT_WRITE ≠ 0) :
    SecureIoInterceptor.intercepted_mmap table fd prot
      = .failed SecureIoInterceptor.EACCES := by
  have h3b : (prot &&& SecureIoInterceptor.PROT_WRITE != 0) = true := by
    simpa [bne_iff_ne] using h3
  simp [SecureIoInterceptor.intercepted_mmap, h1, h2, h3b]

/-- Witness for C6: a protected descriptor, `PROT_READ|PROT_WRITE`. -/
theorem mmap_write_on_protected_rejected_witness :
    SecureIoInterceptor.intercepted_mmap
      [⟨4, none, true, 0, none, none, none, none⟩] 4 3
      = .failed SecureIoInterceptor.EACCES :=
  mmap_write_on_protected_rejected
    [⟨4, none, true, 0, none, none, none, none⟩] 4 3
    ⟨4, none, true, 0, none, none, none, none⟩ rfl rfl (by decide)

theorem backupPathOf_ne (p : String) :
    SecureIoInterceptor.backupPathOf p ≠ p := by
  intro h
  have hlen := congrArg String.length h
  simp [SecureIoInterceptor.backupPathOf, SecureIoInterceptor.BACKUP_SUFFIX,
    String.length_append] at hlen
  exact absurd hlen (by decide)

/-- C7 (amended): when `secure_save` fails by observing the cancellation
flag: if a backup was taken (an original file existed), the original
contents are restored byte for byte and the backup file is removed; if
no backup existed, `restore_from_backup` reports a backup error and the
partially-written output is left in place (it is not removed, contrary
to the original claim — see the counterexample); in both cases the call
returns `SECURE_IO_ERROR_INTERRUPT`, never success. The hypothesis `hW`
says the elided write step only writes the target file. -/
theorem secure_save_failure_restore
    (fs : SecureIoInterceptor.FS) (data : List Byte) (filepath : String)
    (doWrite : SecureIoInterceptor.FS → SecureIoInterceptor.FS)
    (hW : ∀ g q, q ≠ filepath → doWrite g q = g q)
    (hd : data.length ≠ 0) :
    (∀ orig, fs filepath = some orig →
      (SecureIoInterceptor.secure_save fs data filepath doWrite true).2
          = SecureIoInterceptor.SECURE_IO_ERROR_INTERRUPT
        ∧ (SecureIoInterceptor.secure_save fs data filepath doWrite
            true).1 filepath = some orig
        ∧ (SecureIoInterceptor.secure_save fs data filepath doWrite true).1
            (SecureIoInterceptor.backupPathOf filepath) = none)
  ∧ (fs filepath = none →
      fs (SecureIoInterceptor.backupPathOf filepath) = none →
      (SecureIoInterceptor.secure_save fs data filepath doWrite true).2
          = SecureIoInterceptor.SECURE_IO_ERROR_INTERRUPT
        ∧ (SecureIoInterceptor.secure_save fs data filepath doWrite
            true).1 filepath = doWrite fs filepath) := by
  have hbp := backupPathOf_ne filepath
  constructor
  · intro orig horig
    have hres : SecureIoInterceptor.secure_save fs data filepath doWrite true
        = ((SecureIoInterceptor.restore_from_backup
              (doWrite (SecureIoInterceptor.fsSet fs
                (SecureIoInterceptor.backupPathOf filepath) (some orig)))
              filepath).1,
            SecureIoInterceptor.SECURE_IO_ERROR_INTERRUPT) := by
      simp [SecureIoInterceptor.secure_save, SecureIoInterceptor.create_backup,
        horig, hd, SecureIoInterceptor.SECURE_IO_SUCCESS]
    have hbk : (doWrite (SecureIoInterceptor.fsSet fs
        (SecureIoInterceptor.backupPathOf filepath) (some orig)))
        (SecureIoInterceptor.backupPathOf filepath) = some orig := by
      rw [hW _ _ hbp]
      simp [SecureIoInterceptor.fsSet]
    refine ⟨by rw [hres], ?_, ?_⟩
    · rw [hres]
      simp [SecureIoInterceptor.restore_from_backup, hbk,
        SecureIoInterceptor.fsSet, hbp.symm]
    · rw [hres]
      simp [SecureIoInterceptor.restore_from_backup, hbk,
        SecureIoInterceptor.fsSet]
  · intro horig hbnone
    have hres : SecureIoInterceptor.secure_save fs data filepath doWrite true
        = ((SecureIoInterceptor.restore_from_backup (doWrite fs) filepath).1,
            SecureIoInterceptor.SECURE_IO_ERROR_INTERRUPT) := by
      simp [SecureIoInterceptor.secure_save, SecureIoInterceptor.create_backup,
        horig, hd, SecureIoInterceptor.SECURE_IO_SUCCESS]
    have hbk : (doWrite fs) (SecureIoInterceptor.backupPathOf filepath)
        = none := by
      rw [hW _ _ hbp]
      exact hbnone
    refine ⟨by rw [hres], ?_⟩
    rw [hres]
    simp [SecureIoInterceptor.restore_from_backup, hbk]

/-- Witness for the amended C7 theorem: an original file `[7]` is
restored after an interrupted save and the backup is gone. -/
theorem secure_save_failure_restore_witness :
    (SecureIoInterceptor.secure_save
        (fun q => if q = "f" then some [7] else none) [1] "f"
        (fun g => SecureIoInterceptor.fsSet g "f" (some [9])) true).1 "f"
      = some [7]
  ∧ (SecureIoInterceptor.secure_save
        (fun q => if q = "f" then some [7] else none) [1] "f"
        (fun g => SecureIoInterceptor.fsSet g "f" (some [9])) true).1
        (SecureIoInterceptor.backupPathOf "f") = none := by
  have h := (secure_save_failure_restore
    (fun q => if q = "f" then some [7] else none) [1] "f"
    (fun g => SecureIoInterceptor.fsSet g "f" (some [9]))
    (by
      intro g q hq
      simp [SecureIoInterceptor.fsSet, hq])
    (by decide)).1 [7] (by simp)
  exact ⟨h.2.1, h.2.2⟩

/-- Counterexample to C7 as stated: an interrupted `secure_save` onto a
path with no pre-existing file (hence no backup) returns the interrupt
error, but the partially-written output `[1]` remains on disk —
`restore_from_backup` only reports `SECURE_IO_ERROR_BACKUP` when the
backup is missing, it does not remove the partial output as the claim
requires. -/
theorem secure_save_partial_output_remains :
    (SecureIoInterceptor.secure_save (fun _ => none) [1, 2] "f"
        (fun g => SecureIoInterceptor.fsSet g "f" (some [1])) true).2
      = SecureIoInterceptor.SECURE_IO_ERROR_INTERRUPT
  ∧ (SecureIoInterceptor.secure_save (fun _ => none) [1, 2] "f"
        (fun g => SecureIoInterceptor.fsSet g "f" (some [1])) true).1 "f"
      = some [1]
  ∧ ¬ ((SecureIoInterceptor.secure_save (fun _ => none) [1, 2] "f"
        (fun g => SecureIoInterceptor.fsSet g "f" (some [1])) true).1 "f"
      = none) := by decide

/-- C8 (amended): `set_protect_config` never rejects a configuration and
never restricts the layer count to one: it clamps the requested
`num_encryption_layers` into
`[MIN_ENCRYPTION_LAYERS, MAX_ENCRYPTION_LAYERS] = [3, 10]` — so a
request for a single retained layer is raised to 3, and any request
between 3 and 10 layers (in particular every `N > 1` up to 10) is
accepted unchanged. -/
theorem set_protect_config_clamps
    (cur cfg : SecureIoInterceptor.protect_config_t) :
    (SecureIoInterceptor.set_protect_config cur cfg).num_encryption_layers
      = max SecureIoInterceptor.MIN_ENCRYPTION_LAYERS
          (min cfg.num_encryption_layers
            SecureIoInterceptor.MAX_ENCRYPTION_LAYERS) := by
  simp only [SecureIoInterceptor.set_protect_config,
    SecureIoInterceptor.MIN_ENCRYPTION_LAYERS,
    SecureIoInterceptor.MAX_ENCRYPTION_LAYERS]
  split
  · next h => omega
  · next h =>
    split
    · next h2 => omega
    · next h2 => omega

/-- Counterexample to C8 as stated: requesting 5 layers is neither
rejected (the setter has no error channel) nor restricted to one
retained layer — the stored configuration keeps 5 layers; and even an
explicit request for exactly one layer is overridden to
`MIN_ENCRYPTION_LAYERS = 3`. -/
theorem layer_count_never_restricted_to_one :
    (SecureIoInterceptor.set_protect_config SecureIoInterceptor.protect_config
        ⟨5, 1024, 2048, 1⟩).num_encryption_layers = 5
  ∧ (5 : Nat) ≠ 1
  ∧ (SecureIoInterceptor.set_protect_config SecureIoInterceptor.protect_config
        ⟨1, 1024, 2048, 1⟩).num_encryption_layers = 3 := by decide

/-- C9: key erasure — on descriptor destruction (`cleanup_fd_info`, run
on close and, via `disable_interceptor`, on registry teardown) the
32-byte cipher key buffer is zeroed before release; on encryption-context
destruction (`destroy_encryption_ctx`, run on every exit path including
the error paths of `create_encryption_ctx`) the key and IV buffers are
cleansed before release; on hierarchy deactivation
(`cleanup_encryption_keys` of an activated hierarchy) the master key and
the derived file key are zeroed. -/
theorem key_erasure_on_destroy
    (info : SecureIoInterceptor.fd_info) (ctx : CCEncHandler.encryption_ctx_t)
    (keys : LinuxKeys.tee_keys)
    (hk : ∀ b, info.key = some b → b.length = 32)
    (hck : ∀ b, ctx.key = some b → b.length = ctx.key_len)
    (hciv : ∀ c, ctx.cipher_ctx = some c → c.iv.length = CCEncHandler.IV_SIZE)
    (hact : keys.initialized = true) :
    (∀ b, info.key = some b →
      (SecureIoInterceptor.cleanup_fd_info info).2.key_bytes
        = some (List.replicate 32 0))
  ∧ (∀ b, ctx.key = some b →
      (CCEncHandler.destroy_encryption_ctx ctx).key_bytes
        = some (List.replicate ctx.key_len 0))
  ∧ (∀ c, ctx.cipher_ctx = some c →
      (CCEncHandler.destroy_encryption_ctx ctx).iv_bytes
        = some (List.replicate CCEncHandler.IV_SIZE 0))
  ∧ (LinuxKeys.cleanup_encryption_keys keys).master_key
      = List.replicate keys.master_key.length 0
  ∧ (LinuxKeys.cleanup_encryption_keys keys).file_key
      = List.replicate keys.file_key.length 0 := by
  refine ⟨?_, ?_, ?_, ?_, ?_⟩
  · intro b hb
    simp [SecureIoInterceptor.cleanup_fd_info, hb,
      memsetZero_full 32 b (hk b hb)]
  · intro b hb
    simp [CCEncHandler.destroy_encryption_ctx, hb,
      memsetZero_full ctx.key_len b (hck b hb)]
  · intro c hc
    simp [CCEncHandler.destroy_encryption_ctx, hc,
      memsetZero_full CCEncHandler.IV_SIZE c.iv (hciv c hc)]
  · simp [LinuxKeys.cleanup_encryption_keys, hact]
  · simp [LinuxKeys.cleanup_encryption_keys, hact]

/-- Witness for C9 on concrete key, IV and master-key buffers. -/
theorem key_erasure_on_destroy_witness :
    (SecureIoInterceptor.cleanup_fd_info
        ⟨3, none, true, 2, some [7, 7], none,
          some (List.replicate 32 9), none⟩).2.key_bytes
      = some (List.replicate 32 0)
  ∧ (CCEncHandler.destroy_encryption_ctx
        ⟨3, some (List.replicate 32 9), 32,
          some ⟨some (), List.replicate 16 9⟩⟩).key_bytes
      = some (List.replicate 32 0)
  ∧ (CCEncHandler.destroy_encryption_ctx
        ⟨3, some (List.replicate 32 9), 32,
          some ⟨some (), List.replicate 16 9⟩⟩).iv_bytes
      = some (List.replicate CCEncHandler.IV_SIZE 0)
  ∧ (LinuxKeys.cleanup_encryption_keys ⟨[5, 5], [6], true⟩).master_key
      = List.replicate ([5, 5] : List Byte).length 0 := by
  have h := key_erasure_on_destroy
    ⟨3, none, true, 2, some [7, 7], none, some (List.replicate 32 9), none⟩
    ⟨3, some (List.replicate 32 9), 32, some ⟨some (), List.replicate 16 9⟩⟩
    ⟨[5, 5], [6], true⟩
    (by
      intro b hb
      rw [← Option.some.inj hb]
      simp)
    (by
      intro b hb
      rw [← Option.some.inj hb]
      simp)
    (by
      intro c hc
      rw [← Option.some.inj hc]
      simp [CCEncHandler.IV_SIZE])
    rfl
  exact ⟨h.1 _ rfl, h.2.1 _ rfl, h.2.2.1 _ rfl, h.2.2.2.1⟩

end NVFlareIO
